import Mathlib

/-!
Verification of the hiokitool core (src/hiokitool.py): the command batch
(MessageQueue), the line-framed telnet transport (TelnetClient), the
restricted scripting API (RestrictedAPI) and the IO sequencer (IOSequencer),
shallowly embedded as executable Lean definitions.
-/

namespace Hioki

/-- Embedding of MessageQueue (hiokitool.py lines 16-34): an ordered list of
command fragments plus one wait flag. -/
structure MessageQueue where
  items : List String
  wait : Bool
deriving DecidableEq, Repr

/-- MessageQueue.__init__: empty items, wait = True. -/
def MessageQueue.init : MessageQueue := ⟨[], true⟩

/-- MessageQueue.put (lines 22-25): if wait or size == 0 then set_wait(wait);
then append the item. The size test uses the length before the append. -/
def MessageQueue.put (q : MessageQueue) (item : String) (wait : Bool) : MessageQueue :=
  { items := q.items ++ [item],
    wait := if wait || q.items.length == 0 then wait else q.wait }

/-- MessageQueue.get (lines 26-27): join the items with a semicolon. -/
def MessageQueue.get (q : MessageQueue) : String :=
  String.intercalate ";" q.items

/-- MessageQueue.clear (lines 32-34): items become empty and wait returns to True. -/
def MessageQueue.clear (_ : MessageQueue) : MessageQueue := ⟨[], true⟩

/-- Apply a finite sequence of put calls (fragment, wantsReply) in order. -/
def applyPuts (q : MessageQueue) (l : List (String × Bool)) : MessageQueue :=
  l.foldl (fun q p => q.put p.1 p.2) q

/-- Outcome of the low-level socket send: either the bytes were written or an
exception (socket.timeout, BrokenPipeError, ...) was raised. -/
inductive SendResult where
  | ok : SendResult
  | err : SendResult
deriving DecidableEq, Repr

/-- Outcome of _receive_response as seen by send_query: a returned string
(which may be the Timeout Error sentinel) or a raised exception. -/
inductive RecvResult where
  | ok : String → RecvResult
  | err : RecvResult
deriving DecidableEq, Repr

/-- Value returned by send_query: a response string when the batch expected a
reply, or the boolean acknowledgement True otherwise. -/
inductive QueryReturn where
  | response : String → QueryReturn
  | ack : QueryReturn
deriving DecidableEq, Repr

/-- Observable trace of one send_query call: the text handed to the socket,
the returned value (none when an exception was raised) and the queue state
after the call. -/
structure QueryTrace where
  sent : String
  result : Option QueryReturn
  queue : MessageQueue
deriving DecidableEq, Repr

/-- Embedding of TelnetClient.send_query (lines 78-96): render the batch text
with a CRLF terminator, send it, receive a reply exactly when the batch wait
flag is set, and clear the batch only after the round trip completed; a raised
exception in send or receive propagates before Q.clear() runs. -/
def send_query (q : MessageQueue) (snd : SendResult) (rcv : RecvResult) : QueryTrace :=
  let command := q.get ++ "\r\n"
  match snd with
  | .err => ⟨command, none, q⟩
  | .ok =>
    if q.wait then
      match rcv with
      | .err => ⟨command, none, q⟩
      | .ok r => ⟨command, some (.response r), q.clear⟩
    else ⟨command, some .ack, q.clear⟩

lemma put_items (q : MessageQueue) (i : String) (w : Bool) :
    (q.put i w).items = q.items ++ [i] := rfl

lemma put_wait_nonempty (q : MessageQueue) (i : String) (w : Bool)
    (h : q.items ≠ []) : (q.put i w).wait = (q.wait || w) := by
  have hlen : (q.items.length == 0) = false := by
    simp [List.length_eq_zero, h]
  cases w with
  | true => simp [MessageQueue.put, hlen]
  | false => simp [MessageQueue.put, hlen]

lemma applyPuts_wait_nonempty (l : List (String × Bool)) :
    ∀ q : MessageQueue, q.items ≠ [] →
      (applyPuts q l).wait = (q.wait || l.foldr (fun p b => p.2 || b) false) := by
  induction l with
  | nil => intro q _; simp [applyPuts]
  | cons p t ih =>
    intro q hq
    have hne : (q.put p.1 p.2).items ≠ [] := by
      rw [put_items]; simp
    have : applyPuts q (p :: t) = applyPuts (q.put p.1 p.2) t := rfl
    rw [this, ih _ hne, put_wait_nonempty q p.1 p.2 hq]
    simp [Bool.or_assoc]

/-- C3 (amended): applied to a freshly cleared batch, any nonempty sequence of
put calls leaves the wait flag equal to the OR of all the wantsReply
arguments; moreover once the flag is true on a nonempty batch, a later put
with wantsReply = false cannot lower it. (After zero puts the flag keeps its
cleared default of true.) -/
theorem put_or_rule (l : List (String × Bool)) (h : l ≠ []) :
    ((applyPuts MessageQueue.init l).wait = l.foldr (fun p b => p.2 || b) false) ∧
    (∀ (q : MessageQueue) (i : String), q.wait = true → q.items ≠ [] →
      (q.put i false).wait = true) := by
  constructor
  · match l, h with
    | p :: t, _ =>
      have h1 : applyPuts MessageQueue.init (p :: t)
          = applyPuts (MessageQueue.init.put p.1 p.2) t := rfl
      have h2 : (MessageQueue.init.put p.1 p.2).wait = p.2 := by
        cases hp : p.2 <;> simp [MessageQueue.put, MessageQueue.init, hp]
      have h3 : (MessageQueue.init.put p.1 p.2).items ≠ [] := by
        rw [put_items]; simp
      rw [h1, applyPuts_wait_nonempty t _ h3, h2]
      rfl
  · intro q i hw hne
    rw [put_wait_nonempty q i false hne, hw]
    rfl

/-- C3 counterexample: the claim quantifies over every finite sequence of put
calls, but after zero puts the freshly cleared batch reports wait = true while
the OR of an empty argument list is false. -/
theorem put_or_rule_empty_cex :
    (applyPuts MessageQueue.init []).wait = true ∧
    (([] : List (String × Bool)).foldr (fun p b => p.2 || b) false) = false :=
  ⟨rfl, rfl⟩

/-- C3 witness: the OR rule evaluated on the concrete two-put sequence
READ-query then ABORt-setting. -/
theorem put_or_rule_witness :
    ([(":READ?", true), (":ABORt", false)] : List (String × Bool)) ≠ [] ∧
    (((applyPuts MessageQueue.init [(":READ?", true), (":ABORt", false)]).wait
        = [(":READ?", true), (":ABORt", false)].foldr (fun p b => p.2 || b) false) ∧
     (∀ (q : MessageQueue) (i : String), q.wait = true → q.items ≠ [] →
        (q.put i false).wait = true)) :=
  ⟨by decide, put_or_rule [(":READ?", true), (":ABORt", false)] (by decide)⟩

/-- C2: one flush sends the fragments joined by semicolons in call order
(plus the CRLF terminator); when the round trip completes the batch is
cleared to the empty, wait = true state and the call returns a response
exactly when a reply was expected and the boolean acknowledgement otherwise;
when send or receive raises, the batch is left unchanged. -/
theorem send_query_spec (q : MessageQueue) (snd : SendResult) (rcv : RecvResult) :
    ((send_query q snd rcv).sent = String.intercalate ";" q.items ++ "\r\n") ∧
    ((send_query q snd rcv).result.isSome = true →
      (send_query q snd rcv).queue = ⟨[], true⟩ ∧
      (q.wait = true → ∃ r, (send_query q snd rcv).result = some (.response r)) ∧
      (q.wait = false → (send_query q snd rcv).result = some .ack)) ∧
    ((send_query q snd rcv).result = none → (send_query q snd rcv).queue = q) := by
  cases snd with
  | err =>
    refine ⟨rfl, ?_, fun _ => rfl⟩
    intro h
    simp [send_query] at h
  | ok =>
    cases hw : q.wait with
    | false =>
      refine ⟨?_, ?_, ?_⟩
      · simp [send_query, hw, MessageQueue.get]
      · intro _
        refine ⟨?_, ?_, ?_⟩
        · simp [send_query, hw, MessageQueue.clear]
        · intro hc; simp at hc
        · intro _; simp [send_query, hw]
      · intro h; simp [send_query, hw] at h
    | true =>
      cases rcv with
      | err =>
        refine ⟨?_, ?_, ?_⟩
        · simp [send_query, hw, MessageQueue.get]
        · intro h; simp [send_query, hw] at h
        · intro _; simp [send_query, hw]
      | ok r =>
        refine ⟨?_, ?_, ?_⟩
        · simp [send_query, hw, MessageQueue.get]
        · intro _
          refine ⟨?_, ?_, ?_⟩
          · simp [send_query, hw, MessageQueue.clear]
          · intro _; exact ⟨r, by simp [send_query, hw]⟩
          · intro hc; simp at hc
        · intro h; simp [send_query, hw] at h

/-- C2 witness: the flush behaviour evaluated on a concrete one-fragment
batch that expects a reply, with a successful round trip. -/
theorem send_query_spec_witness :
    ((send_query ⟨["*IDN?"], true⟩ .ok (.ok "HIOKI")).sent
        = String.intercalate ";" (["*IDN?"] : List String) ++ "\r\n") ∧
    ((send_query ⟨["*IDN?"], true⟩ .ok (.ok "HIOKI")).result.isSome = true →
      (send_query ⟨["*IDN?"], true⟩ .ok (.ok "HIOKI")).queue = ⟨[], true⟩ ∧
      ((⟨["*IDN?"], true⟩ : MessageQueue).wait = true →
        ∃ r, (send_query ⟨["*IDN?"], true⟩ .ok (.ok "HIOKI")).result = some (.response r)) ∧
      ((⟨["*IDN?"], true⟩ : MessageQueue).wait = false →
        (send_query ⟨["*IDN?"], true⟩ .ok (.ok "HIOKI")).result = some .ack)) ∧
    ((send_query ⟨["*IDN?"], true⟩ .ok (.ok "HIOKI")).result = none →
      (send_query ⟨["*IDN?"], true⟩ .ok (.ok "HIOKI")).queue = ⟨["*IDN?"], true⟩) :=
  send_query_spec ⟨["*IDN?"], true⟩ .ok (.ok "HIOKI")

/-- Python bytes.strip(b) on a byte list: remove the byte b from the leading
and trailing ends only (interior occurrences stay). -/
def stripByte (b : Nat) (l : List Nat) : List Nat :=
  ((l.dropWhile (· == b)).reverse.dropWhile (· == b)).reverse

/-- One event observed by one sock.recv call inside _receive_response: either
a chunk of bytes returned at wall-clock time now (measured from the start of
the receive call), or a raised socket.timeout because no bytes arrived within
the socket timeout. -/
inductive RecvEvent where
  | chunk : List Nat → Nat → RecvEvent
  | sockTimeout : RecvEvent
deriving DecidableEq, Repr

/-- Possible outcomes of _receive_response. -/
inductive RecvOutcome where
  | line : List Nat → RecvOutcome
  | timeoutSentinel : RecvOutcome
  | tooLarge : RecvOutcome
  | hardError : RecvOutcome
  | blocked : RecvOutcome
deriving DecidableEq, Repr

/-- Embedding of the loop of TelnetClient._receive_response (lines 98-126),
driven by the finite list of recv events. Per iteration: strip CR from the
chunk ends; if an LF byte is present, strip LF from the ends and return the
accumulated buffer as the line; otherwise accumulate, fail hard past the 1 MiB
ceiling, and return the Timeout Error sentinel when the wall clock measured
from the start of the call has passed the timeout. A raised socket.timeout
falls into the generic exception handler and is re-raised as a RuntimeError
hard failure. An exhausted event list models a recv still blocking. -/
def receiveLoop (timeout : Nat) (buf : List Nat) : List RecvEvent → RecvOutcome
  | [] => .blocked
  | .sockTimeout :: _ => .hardError
  | .chunk b t :: rest =>
    let rcv := stripByte 13 b
    if 10 ∈ rcv then .line (buf ++ stripByte 10 rcv)
    else
      let buf2 := buf ++ rcv
      if buf2.length > 1024 * 1024 then .tooLarge
      else if t > timeout then .timeoutSentinel
      else receiveLoop timeout buf2 rest

/-- Embedding of TelnetClient._receive_response from an empty buffer. -/
def receiveResponse (timeout : Nat) (events : List RecvEvent) : RecvOutcome :=
  receiveLoop timeout [] events

/-- C1: evaluation of _receive_response at the failing inputs. When the bytes
of OK CR LF arrive as one chunk, bytes.strip only trims the chunk ends, so
the interior CR survives and the returned line is OK CR (bytes 79 75 13),
not OK; when the bytes of A CR LF B arrive as one chunk, the CR and LF are
interior, so the whole chunk becomes the returned line (65 13 10 66) and the
byte B is consumed rather than left pending for the next call. -/
theorem receive_single_chunk_bug :
    receiveResponse 10 [.chunk [79, 75, 13, 10] 0] = .line [79, 75, 13] ∧
    receiveResponse 10 [.chunk [65, 13, 10, 66] 0] = .line [65, 13, 10, 66] := by
  constructor <;> rfl

/-- C4 (amended): when chunks keep arriving without an LF and the wall clock
measured from the start of the call passes the timeout, the call resolves
with the Timeout Error sentinel value; but when recv itself raises a socket
timeout because no bytes arrived, the generic handler re-raises a RuntimeError
hard failure — so the same call site mixes the sentinel kind and the raised
kind depending on how the timeout manifests. -/
theorem receive_timeout_kinds (timeout : Nat) (buf b : List Nat) (t : Nat)
    (rest : List RecvEvent)
    (hlf : 10 ∉ stripByte 13 b)
    (hsz : ¬ (buf ++ stripByte 13 b).length > 1024 * 1024)
    (ht : t > timeout) :
    receiveLoop timeout buf (.chunk b t :: rest) = .timeoutSentinel ∧
    receiveLoop timeout buf (.sockTimeout :: rest) = .hardError := by
  constructor
  · show (if 10 ∈ stripByte 13 b then RecvOutcome.line (buf ++ stripByte 10 (stripByte 13 b))
      else if (buf ++ stripByte 13 b).length > 1024 * 1024 then .tooLarge
      else if t > timeout then .timeoutSentinel
      else receiveLoop timeout (buf ++ stripByte 13 b) rest) = .timeoutSentinel
    rw [if_neg hlf, if_neg hsz, if_pos ht]
  · rfl

/-- C4 witness: one byte A arriving at wall-clock time 2 with timeout 1 gives
the sentinel, while a blocking recv raising socket.timeout gives the hard
failure, at the same call site. -/
theorem receive_timeout_kinds_witness :
    ((10 : Nat) ∉ stripByte 13 [65]) ∧
    (¬ (([] : List Nat) ++ stripByte 13 [65]).length > 1024 * 1024) ∧
    ((2 : Nat) > 1) ∧
    (receiveLoop 1 [] [.chunk [65] 2] = .timeoutSentinel ∧
     receiveLoop 1 [] [.sockTimeout] = .hardError) :=
  ⟨by decide, by decide, by decide,
   receive_timeout_kinds 1 [] [65] 2 [] (by decide) (by decide) (by decide)⟩

/-- C4 counterexample: at the single call site _receive_response, two
manifestations of no LF within the timeout produce outcomes of different
kinds — a sentinel value for a late chunk and a raised hard failure for a
blocking recv — refuting the claim that the timeout outcome at one call site
is always the same kind. -/
theorem receive_timeout_mix_cex :
    receiveResponse 1 [.chunk [65] 2] = .timeoutSentinel ∧
    receiveResponse 1 [.sockTimeout] = .hardError := by
  constructor <;> rfl

/-- Embedding of the IOSequencer state (hiokitool.py lines 228-287). -/
structure IOSequencer where
  enabled : Bool
  patterns : List Nat
  current_index : Nat
  samples_per_step : Nat
  samples_at_current : Nat
  loop : Bool
deriving DecidableEq, Repr

/-- Python list(range(start, stop, step)) for a positive step. -/
def pyRange (start stop step : Nat) : List Nat :=
  if step = 0 then [] else List.range' start ((stop - start + step - 1) / step) step

/-- Construction of an enabled range-mode IOSequencer (lines 230-287, the
enabled branch with mode = range and the 0-2047 and step validations already
passed): patterns = list(range(start, end + 1, step)), falling back to the
single pattern 0 when the range is empty; index, sample counter start at 0. -/
def IOSequencer.mkRange (start endv step : Nat) (lp : Bool) (sps : Nat) : IOSequencer :=
  let ps := pyRange start (endv + 1) step
  { enabled := true
    patterns := if ps = [] then [0] else ps
    current_index := 0
    samples_per_step := sps
    samples_at_current := 0
    loop := lp }

/-- IOSequencer.get_current (lines 312-318): the pattern at the current index
when enabled and in bounds, None otherwise. -/
def IOSequencer.get_current (s : IOSequencer) : Option Nat :=
  if s.enabled = false ∨ s.patterns = [] then none
  else if s.current_index < s.patterns.length then s.patterns[s.current_index]?
  else none

/-- IOSequencer.next (lines 295-310): when enabled, reset the sample counter
and advance the index; past the end, wrap to 0 when looping, otherwise clear
the enabled flag and return None; the advanced value is get_current. Returns
the yielded value together with the successor state. -/
def IOSequencer.next (s : IOSequencer) : Option Nat × IOSequencer :=
  if s.enabled = false then (none, s)
  else
    let s1 := { s with samples_at_current := 0, current_index := s.current_index + 1 }
    if s1.current_index ≥ s1.patterns.length then
      if s1.loop then
        let s2 := { s1 with current_index := 0 }
        (IOSequencer.get_current s2, s2)
      else
        (none, { s1 with enabled := false })
    else (IOSequencer.get_current s1, s1)

/-- IOSequencer.increment_sample (lines 320-323): bump the sample counter
when enabled. -/
def IOSequencer.increment_sample (s : IOSequencer) : IOSequencer :=
  if s.enabled then { s with samples_at_current := s.samples_at_current + 1 } else s

/-- IOSequencer.should_change (lines 289-293). -/
def IOSequencer.should_change (s : IOSequencer) : Bool :=
  if s.enabled = false ∨ s.patterns = [] then false
  else s.samples_at_current ≥ s.samples_per_step

/-- IOSequencer.is_complete (lines 325-329): False when disabled or looping,
otherwise index past the end. -/
def IOSequencer.is_complete (s : IOSequencer) : Bool :=
  if s.enabled = false ∨ s.loop then false
  else s.current_index ≥ s.patterns.length

/-- One state-mutating operation on a sequencer: an advance (next) or one
observed sample (increment_sample). -/
inductive SeqOp where
  | advance : SeqOp
  | sample : SeqOp
deriving DecidableEq, Repr

/-- Apply one sequencer operation, keeping only the successor state. -/
def applySeqOp (s : IOSequencer) : SeqOp → IOSequencer
  | .advance => (IOSequencer.next s).2
  | .sample => IOSequencer.increment_sample s

/-- Apply a list of sequencer operations in order. -/
def applySeqOps (s : IOSequencer) (ops : List SeqOp) : IOSequencer :=
  ops.foldl applySeqOp s

/-- Iterate next n times, keeping the state. -/
def advanceN (s : IOSequencer) : Nat → IOSequencer
  | 0 => s
  | n + 1 => advanceN (IOSequencer.next s).2 n

/-- The sequencer of the claim: range(0, 7, 1), loop = false,
samples_per_step = 1. -/
def seq07 : IOSequencer := IOSequencer.mkRange 0 7 1 false 1

/-- C7: evaluation at the failing input. For range(0,7,1), loop = false,
samples_per_step = 1, after exactly 8 advances the sequencer yields no
further value (next returns None and get_current is None) and its enabled
flag is cleared, but is_complete reports false — not Completed — because
next() cleared the enabled flag before is_complete can ever see the
past-the-end index; with loop = true the 8th advance instead wraps to index 0
and yields pattern 0 with the sequencer still active. -/
theorem sequencer_completion_bug :
    ((IOSequencer.next (advanceN seq07 8)).1 = none ∧
     IOSequencer.get_current (advanceN seq07 8) = none ∧
     (advanceN seq07 8).enabled = false ∧
     IOSequencer.is_complete (advanceN seq07 8) = false) ∧
    ((advanceN (IOSequencer.mkRange 0 7 1 true 1) 8).current_index = 0 ∧
     (advanceN (IOSequencer.mkRange 0 7 1 true 1) 8).enabled = true ∧
     (IOSequencer.next (advanceN (IOSequencer.mkRange 0 7 1 true 1) 7)).1 = some 0) := by
  constructor <;> refine ⟨?_, ?_, ?_⟩ <;> first | rfl | exact ⟨rfl, rfl⟩

/-- C8 counterexample: after the 8th advance of the non-looping
range(0,7,1) sequencer, the current index equals the pattern-list length 8,
so it is not within the half-open interval claimed. -/
theorem sequencer_index_cex :
    (advanceN seq07 8).current_index = (advanceN seq07 8).patterns.length ∧
    ¬ (advanceN seq07 8).current_index < (advanceN seq07 8).patterns.length := by
  constructor
  · rfl
  · decide

lemma applySeqOp_patterns (s : IOSequencer) (o : SeqOp) :
    (applySeqOp s o).patterns = s.patterns := by
  cases o with
  | advance =>
    show (IOSequencer.next s).2.patterns = s.patterns
    unfold IOSequencer.next
    by_cases h : s.enabled = false
    · rw [if_pos h]
    · rw [if_neg h]
      dsimp only
      split
      · split <;> rfl
      · rfl
  | sample =>
    show (IOSequencer.increment_sample s).patterns = s.patterns
    unfold IOSequencer.increment_sample
    split <;> rfl

/-- The index invariant preserved by every operation: the index never exceeds
the pattern count, and strictly below it while the sequencer is enabled. -/
def IdxInv (s : IOSequencer) : Prop :=
  s.current_index ≤ s.patterns.length ∧
    (s.enabled = true → s.current_index < s.patterns.length)

lemma idxInv_applySeqOp (s : IOSequencer) (o : SeqOp) (h : IdxInv s) :
    IdxInv (applySeqOp s o) := by
  obtain ⟨h1, h2⟩ := h
  cases o with
  | sample =>
    show IdxInv (IOSequencer.increment_sample s)
    unfold IOSequencer.increment_sample
    split
    · exact ⟨h1, h2⟩
    · exact ⟨h1, h2⟩
  | advance =>
    show IdxInv (IOSequencer.next s).2
    unfold IOSequencer.next
    by_cases he : s.enabled = false
    · rw [if_pos he]; exact ⟨h1, h2⟩
    · rw [if_neg he]
      have hen : s.enabled = true := by
        cases hx : s.enabled
        · exact absurd hx he
        · rfl
      have hlt : s.current_index < s.patterns.length := h2 hen
      dsimp only
      by_cases hge : s.current_index + 1 ≥ s.patterns.length
      · rw [if_pos hge]
        by_cases hl : s.loop
        · rw [if_pos hl]
          exact ⟨Nat.zero_le _, fun _ => Nat.lt_of_le_of_lt (Nat.zero_le _) hlt⟩
        · rw [if_neg hl]
          refine ⟨Nat.succ_le_of_lt hlt, fun hc => ?_⟩
          simp at hc
      · rw [if_neg hge]
        have : s.current_index + 1 < s.patterns.length := Nat.lt_of_not_le hge
        exact ⟨Nat.le_of_lt this, fun _ => this⟩

lemma idxInv_applySeqOps (ops : List SeqOp) :
    ∀ s : IOSequencer, IdxInv s → IdxInv (applySeqOps s ops) := by
  induction ops with
  | nil => intro s h; exact h
  | cons o t ih =>
    intro s h
    exact ih (applySeqOp s o) (idxInv_applySeqOp s o h)

lemma disabled_applySeqOp (s : IOSequencer) (o : SeqOp) (h : s.enabled = false) :
    applySeqOp s o = s := by
  cases o with
  | advance =>
    show (IOSequencer.next s).2 = s
    unfold IOSequencer.next
    rw [if_pos h]
  | sample =>
    show IOSequencer.increment_sample s = s
    unfold IOSequencer.increment_sample
    rw [if_neg (by rw [h]; exact Bool.false_ne_true)]

lemma disabled_applySeqOps (ops : List SeqOp) :
    ∀ s : IOSequencer, s.enabled = false → applySeqOps s ops = s := by
  induction ops with
  | nil => intro s _; rfl
  | cons o t ih =>
    intro s h
    show applySeqOps (applySeqOp s o) t = s
    rw [disabled_applySeqOp s o h, ih s h]

/-- C8 (amended): from any enabled range-mode construction, after every finite
sequence of advance and sample operations the index is at most the pattern
count and strictly below it whenever the sequencer is still enabled (the
index equals the count exactly when a non-looping pass has just completed and
the sequencer disabled itself); and a disabled sequencer is permanently
disabled — every later operation leaves the state unchanged and neither next
nor get_current ever emits another value. -/
theorem sequencer_invariants (start endv step : Nat) (lp : Bool) (sps : Nat)
    (ops : List SeqOp) :
    (IdxInv (applySeqOps (IOSequencer.mkRange start endv step lp sps) ops)) ∧
    (∀ t : IOSequencer, t.enabled = false →
      applySeqOps t ops = t ∧ (IOSequencer.next t).1 = none ∧
        IOSequencer.get_current t = none) := by
  constructor
  · refine idxInv_applySeqOps ops _ ⟨Nat.zero_le _, fun _ => ?_⟩
    show 0 < (IOSequencer.mkRange start endv step lp sps).patterns.length
    unfold IOSequencer.mkRange
    dsimp only
    split
    · simp
    · rename_i hne
      exact List.length_pos.mpr hne
  · intro t ht
    refine ⟨disabled_applySeqOps ops t ht, ?_, ?_⟩
    · show (IOSequencer.next t).1 = none
      unfold IOSequencer.next
      rw [if_pos ht]
    · show IOSequencer.get_current t = none
      unfold IOSequencer.get_current
      rw [if_pos (Or.inl ht)]

/-- C8 witness: the amended invariant evaluated for the range(0,7,1)
non-looping sequencer after one advance and one sample, and the permanence
facts applied to a concrete disabled state. -/
theorem sequencer_invariants_witness :
    (IdxInv (applySeqOps (IOSequencer.mkRange 0 7 1 false 1)
        [SeqOp.advance, SeqOp.sample])) ∧
    (∀ t : IOSequencer, t.enabled = false →
      applySeqOps t [SeqOp.advance, SeqOp.sample] = t ∧
        (IOSequencer.next t).1 = none ∧ IOSequencer.get_current t = none) :=
  sequencer_invariants 0 7 1 false 1 [SeqOp.advance, SeqOp.sample]


/-- Python whitespace characters recognised by str.strip with no argument. -/
def isPySpace (c : Char) : Bool :=
  c = ' ' ∨ c = '\t' ∨ c = '\n' ∨ c = '\r' ∨ c = '\x0b' ∨ c = '\x0c'

/-- Python str.strip with no argument: drop whitespace from both ends. -/
def pyStrip (l : List Char) : List Char :=
  ((l.dropWhile isPySpace).reverse.dropWhile isPySpace).reverse

/-- Python str.split with a one-character separator: split at every
occurrence, keeping empty pieces, so the result is always nonempty. -/
def pySplit (sep : Char) (l : List Char) : List (List Char) :=
  l.foldr
    (fun c acc =>
      if c = sep then [] :: acc
      else
        match acc with
        | [] => [[c]]
        | a :: as => (c :: a) :: as)
    [[]]

/-- Python str.upper on the ASCII letters, the only ones the validated
arguments contain. -/
def toUpperChars (l : List Char) : List Char :=
  l.map (fun c => if 'a' ≤ c ∧ c ≤ 'z' then Char.ofNat (c.toNat - 32) else c)

/-- Python str.upper wrapped for whole strings. -/
def pyUpper (s : String) : String := String.mk (toUpperChars s.data)

/-- Python str.startswith applied to the 0b prefix. -/
def startsWith0b (l : List Char) : Bool :=
  match l with
  | '0' :: 'b' :: _ => true
  | _ => false

/-- Accumulate a decimal digit list into a natural number. -/
def digitsToNat (l : List Char) : Nat :=
  l.foldl (fun n c => 10 * n + (c.toNat - 48)) 0

/-- Parse a nonempty all-decimal-digit character list. -/
def decDigits? (l : List Char) : Option Nat :=
  if l ≠ [] ∧ l.all Char.isDigit then some (digitsToNat l) else none

/-- Parse a nonempty all-binary-digit character list. -/
def binDigits? (l : List Char) : Option Nat :=
  if l ≠ [] ∧ l.all (fun c => c = '0' ∨ c = '1') then
    some (l.foldl (fun n c => 2 * n + (c.toNat - 48)) 0)
  else none

/-- Attach a sign to a natural magnitude. -/
def intOfSign (neg : Bool) (n : Nat) : Int :=
  if neg then -(Int.ofNat n) else Int.ofNat n

/-- Modelled from the Python builtin int(s) on plain decimal literals:
surrounding whitespace, an optional sign, then decimal digits. -/
def pyIntDec? (l : List Char) : Option Int :=
  match pyStrip l with
  | '-' :: r => (decDigits? r).map (fun n => -(Int.ofNat n))
  | '+' :: r => (decDigits? r).map (fun n => Int.ofNat n)
  | t => (decDigits? t).map (fun n => Int.ofNat n)

/-- Modelled from the Python builtin int(s, 2) on literals carrying the 0b
prefix, the only shape the set_io branch passes to it. -/
def pyIntBin? (l : List Char) : Option Int :=
  match pyStrip l with
  | '0' :: 'b' :: r => (binDigits? r).map (fun n => Int.ofNat n)
  | _ => none

/-- Modelled from the Python builtin float(s) on plain decimal literals:
surrounding whitespace, an optional sign, digits with at most one point and
at least one digit (no exponent, infinity or nan forms); the value is built
with mkRat so that evaluation stays inside the kernel-computable core. -/
def pyFloat? (l : List Char) : Option ℚ :=
  let s := pyStrip l
  let neg : Bool := match s with | '-' :: _ => true | _ => false
  let t : List Char := match s with | '-' :: r => r | '+' :: r => r | r => r
  let ip := t.takeWhile Char.isDigit
  let rest := t.dropWhile Char.isDigit
  match rest with
  | [] =>
    if ip = [] then none
    else some (mkRat (intOfSign neg (digitsToNat ip)) 1)
  | '.' :: fp =>
    if fp.all Char.isDigit ∧ (ip ≠ [] ∨ fp ≠ []) then
      some (mkRat
        (intOfSign neg (digitsToNat ip * 10 ^ fp.length + digitsToNat fp))
        (10 ^ fp.length))
    else none
  | _ => none

/-- Embedding of the RestrictedAPI mutable state (lines 345-352): the valid
measurement accumulator, the last IO value and the last range. -/
structure RestrictedAPI where
  results : List ℚ
  current_io : Option Int
  current_range : Option String
deriving DecidableEq, Repr

/-- RestrictedAPI.__init__. -/
def RestrictedAPI.initState : RestrictedAPI := ⟨[], none, none⟩

/-- Observable trace of one capability-API call: the returned value (none
when an exception was raised), the raised error message when any, the API
state and batch after the call, the texts flushed over the wire (one entry
per send_query) and the number of warning prints. -/
structure ApiTrace (α : Type) where
  ret : Option α
  err : Option String
  api : RestrictedAPI
  queue : MessageQueue
  wire : List String
  warnings : Nat
deriving DecidableEq, Repr

/-- Argument accepted by set_io: already an int, or a string to convert. -/
inductive IOArg where
  | int : Int → IOArg
  | str : String → IOArg
deriving DecidableEq, Repr

/-- Embedding of RestrictedAPI.set_io (lines 354-372): convert a string
argument with int(s, 2) under a 0b prefix and int(s) otherwise, raise on
conversion failure, raise when the value is outside 0-2047, and only then
enqueue the IO:OUTPut fragment without reply and flush it; a transport
failure propagates with the fragment still queued and the state unset. -/
def RestrictedAPI.set_io (st : RestrictedAPI) (q : MessageQueue) (arg : IOArg)
    (snd : SendResult) (rcv : RecvResult) : ApiTrace Bool :=
  let v? : Option Int := match arg with
    | .int i => some i
    | .str s => if startsWith0b s.data then pyIntBin? s.data else pyIntDec? s.data
  match v? with
  | none =>
    let shown := match arg with | .int i => toString i | .str s => s
    ⟨none, some ("Invalid IO value: " ++ shown), st, q, [], 0⟩
  | some v =>
    if ¬ (0 ≤ v ∧ v ≤ 2047) then
      ⟨none, some ("IO value " ++ toString v ++ " out of range (0-2047)"), st, q, [], 0⟩
    else
      let t := send_query (q.put (":IO:OUTPut " ++ toString v) false) snd rcv
      match t.result with
      | none => ⟨none, some "transport failure", st, t.queue, [t.sent], 0⟩
      | some _ => ⟨some true, none, { st with current_io := some v }, t.queue, [t.sent], 0⟩

/-- Per-reply parsing of RestrictedAPI.measure (lines 384-393), with the
Python float builtin abstracted as parse: a reply containing a comma is split
and every stripped field parsed — the first value is kept when all fields
parse, and any failing field makes the whole reply unparsable; a reply
without a comma is stripped and parsed directly; an unparsable reply becomes
the null placeholder. -/
def parseReply (parse : List Char → Option ℚ) (s : String) : Option ℚ :=
  if s.data.contains ',' then
    let vals := (pySplit ',' s.data).map (fun v => parse (pyStrip v))
    if vals.all (fun o => o.isSome) then vals.headI else none
  else parse (pyStrip s.data)

/-- The measurement loop of RestrictedAPI.measure: per sample, enqueue the
READ query expecting a reply, flush it, and parse the reply; returns the
parsed values, the sent texts, the warning count and the final batch. -/
def measureLoop (parse : List Char → Option ℚ) (q : MessageQueue) :
    List String → List (Option ℚ) × List String × Nat × MessageQueue
  | [] => ([], [], 0, q)
  | r :: rest =>
    let t := send_query (q.put ":READ?" true) .ok (.ok r)
    let v := parseReply parse r
    let p := measureLoop parse t.queue rest
    (v :: p.1, t.sent :: p.2.1, (if v.isSome then 0 else 1) + p.2.2.1, p.2.2.2)

/-- Embedding of RestrictedAPI.measure (lines 374-399): raise when the sample
count is outside 1-5000 before any query; otherwise run one READ round trip
per sample against the reply stream, record a null placeholder with a warning
for each unparsable reply, and extend the accumulator with the valid values
only. The inter-sample delay only sleeps and is not modelled. -/
def RestrictedAPI.measure (parse : List Char → Option ℚ) (st : RestrictedAPI)
    (q : MessageQueue) (samples : Int) (replies : List String) :
    ApiTrace (List (Option ℚ)) :=
  if samples < 1 ∨ samples > 5000 then
    ⟨none, some ("Sample count " ++ toString samples ++ " out of range (1-5000)"),
      st, q, [], 0⟩
  else
    let p := measureLoop parse q (replies.take samples.toNat)
    ⟨some p.1, none, { st with results := st.results ++ p.1.filterMap id },
      p.2.2.2, p.2.1, p.2.2.1⟩

/-- The valid_ranges list of RestrictedAPI.set_range (line 403). -/
def valid_ranges : List String :=
  ["100MV", "1V", "10V", "100V", "1000V", "AUTO", "MAX", "MIN", "DEFAULT"]

/-- Embedding of RestrictedAPI.set_range (lines 401-413): uppercase the
argument, raise when it is not a valid range before any enqueue, otherwise
enqueue the RANGe set fragment without reply (with the original casing) and
flush it. -/
def RestrictedAPI.set_range (st : RestrictedAPI) (q : MessageQueue)
    (range_value : String) (snd : SendResult) (rcv : RecvResult) : ApiTrace Bool :=
  if valid_ranges.contains (pyUpper range_value) = false then
    ⟨none, some ("Invalid range: " ++ range_value ++ ". Valid: "
      ++ String.intercalate ", " valid_ranges), st, q, [], 0⟩
  else
    let t := send_query (q.put (":SENSe:VOLTage:DC:RANGe " ++ range_value) false) snd rcv
    match t.result with
    | none => ⟨none, some "transport failure", st, t.queue, [t.sent], 0⟩
    | some _ =>
      ⟨some true, none, { st with current_range := some range_value }, t.queue, [t.sent], 0⟩

/-- The valid_speeds list of RestrictedAPI.set_speed (line 417). -/
def valid_speeds : List String := ["SLOW", "MEDIUM", "MED", "FAST"]

/-- Embedding of RestrictedAPI.set_speed (lines 415-430): uppercase the
argument, raise when it is not a valid speed before any enqueue, normalize
MEDIUM to MED, then enqueue the NPLCycles set fragment without reply and
flush it. -/
def RestrictedAPI.set_speed (st : RestrictedAPI) (q : MessageQueue)
    (speed : String) (snd : SendResult) (rcv : RecvResult) : ApiTrace Bool :=
  if valid_speeds.contains (pyUpper speed) = false then
    ⟨none, some ("Invalid speed: " ++ speed ++ ". Valid: SLOW, MEDium, FAST"),
      st, q, [], 0⟩
  else
    let sp := if pyUpper speed = "MEDIUM" then "MED" else pyUpper speed
    let t := send_query (q.put (":SENSe:VOLTage:DC:NPLCycles " ++ sp) false) snd rcv
    match t.result with
    | none => ⟨none, some "transport failure", st, t.queue, [t.sent], 0⟩
    | some _ => ⟨some true, none, st, t.queue, [t.sent], 0⟩

/-- Embedding of RestrictedAPI.wait (lines 432-437): raise when the duration
is outside 0-60 seconds, otherwise only sleep. -/
def RestrictedAPI.wait (st : RestrictedAPI) (q : MessageQueue) (seconds : ℚ) :
    ApiTrace Bool :=
  if ¬ (0 ≤ seconds ∧ seconds ≤ 60) then
    ⟨none, some "Wait time out of range (0-60 seconds)", st, q, [], 0⟩
  else ⟨some true, none, st, q, [], 0⟩

/-- Python os.path.basename on a posix path: the portion after the last
slash, written as a left fold that restarts at each slash. -/
def basenameChars (l : List Char) : List Char :=
  l.foldl (fun acc c => if c = '/' then [] else acc ++ [c]) []

/-- Python str.endswith on character lists: the suffix relation. -/
def endsWithSuffix (l suf : List Char) : Bool := decide (suf <:+ l)

/-- The filename save_results starts from (lines 482-483): the caller name
when present and nonempty, else the timestamp-derived default. -/
def chooseName (nowStamp : String) (filename : Option String) : List Char :=
  match filename with
  | none => ("script_results_" ++ nowStamp ++ ".csv").data
  | some s =>
    if s.data = [] then ("script_results_" ++ nowStamp ++ ".csv").data else s.data

/-- The extension step of save_results (lines 487-488): append the csv
extension when the name does not already end with it. -/
def appendCsv (b : List Char) : List Char :=
  if endsWithSuffix b ".csv".data then b else b ++ ".csv".data

/-- Embedding of the filename logic of RestrictedAPI.save_results (lines
480-501): an absent or empty filename defaults to the timestamp-derived name,
the name is then reduced to its base name, a csv extension is appended when
missing, and the resulting name is both the name the file is opened with and
the returned value. -/
def save_results_name (nowStamp : String) (filename : Option String) : String :=
  String.mk (appendCsv (basenameChars (chooseName nowStamp filename)))


/-- C5: every capability-API call with an out-of-range argument returns its
validation error synchronously with the batch unchanged, the accumulator and
the rest of the API state unchanged, and nothing sent over the wire. -/
theorem api_validation_spec (st : RestrictedAPI) (q : MessageQueue)
    (snd : SendResult) (rcv : RecvResult) :
    (∀ v : Int, ¬ (0 ≤ v ∧ v ≤ 2047) →
      RestrictedAPI.set_io st q (.int v) snd rcv
        = ⟨none, some ("IO value " ++ toString v ++ " out of range (0-2047)"),
            st, q, [], 0⟩) ∧
    (∀ (parse : List Char → Option ℚ) (samples : Int) (replies : List String),
      (samples < 1 ∨ samples > 5000) →
      RestrictedAPI.measure parse st q samples replies
        = ⟨none, some ("Sample count " ++ toString samples ++ " out of range (1-5000)"),
            st, q, [], 0⟩) ∧
    (∀ s : String, valid_ranges.contains (pyUpper s) = false →
      RestrictedAPI.set_range st q s snd rcv
        = ⟨none, some ("Invalid range: " ++ s ++ ". Valid: "
            ++ String.intercalate ", " valid_ranges), st, q, [], 0⟩) ∧
    (∀ s : String, valid_speeds.contains (pyUpper s) = false →
      RestrictedAPI.set_speed st q s snd rcv
        = ⟨none, some ("Invalid speed: " ++ s ++ ". Valid: SLOW, MEDium, FAST"),
            st, q, [], 0⟩) ∧
    (∀ x : ℚ, ¬ (0 ≤ x ∧ x ≤ 60) →
      RestrictedAPI.wait st q x
        = ⟨none, some "Wait time out of range (0-60 seconds)", st, q, [], 0⟩) := by
  refine ⟨?_, ?_, ?_, ?_, ?_⟩
  · intro v h
    unfold RestrictedAPI.set_io
    dsimp only
    rw [if_pos h]
  · intro parse samples replies h
    unfold RestrictedAPI.measure
    rw [if_pos h]
  · intro s h
    unfold RestrictedAPI.set_range
    rw [if_pos h]
  · intro s h
    unfold RestrictedAPI.set_speed
    rw [if_pos h]
  · intro x h
    unfold RestrictedAPI.wait
    rw [if_pos h]

/-- C5 witness: the validation behaviour applied at concrete out-of-range
arguments — IO value 2048, sample count 0, range 5V, speed TURBO and wait 61
seconds — from the fresh API state and an empty batch. -/
theorem api_validation_spec_witness :
    (¬ (0 ≤ (2048 : Int) ∧ (2048 : Int) ≤ 2047)) ∧
    ((0 : Int) < 1 ∨ (0 : Int) > 5000) ∧
    (valid_ranges.contains (pyUpper "5V") = false) ∧
    (valid_speeds.contains (pyUpper "TURBO") = false) ∧
    (¬ (0 ≤ (61 : ℚ) ∧ (61 : ℚ) ≤ 60)) ∧
    (RestrictedAPI.set_io RestrictedAPI.initState MessageQueue.init (.int 2048) .ok (.ok "")
      = ⟨none, some ("IO value " ++ toString (2048 : Int) ++ " out of range (0-2047)"),
          RestrictedAPI.initState, MessageQueue.init, [], 0⟩) ∧
    (RestrictedAPI.measure pyFloat? RestrictedAPI.initState MessageQueue.init 0 []
      = ⟨none, some ("Sample count " ++ toString (0 : Int) ++ " out of range (1-5000)"),
          RestrictedAPI.initState, MessageQueue.init, [], 0⟩) ∧
    (RestrictedAPI.set_range RestrictedAPI.initState MessageQueue.init "5V" .ok (.ok "")
      = ⟨none, some ("Invalid range: " ++ "5V" ++ ". Valid: "
          ++ String.intercalate ", " valid_ranges),
          RestrictedAPI.initState, MessageQueue.init, [], 0⟩) ∧
    (RestrictedAPI.set_speed RestrictedAPI.initState MessageQueue.init "TURBO" .ok (.ok "")
      = ⟨none, some ("Invalid speed: " ++ "TURBO" ++ ". Valid: SLOW, MEDium, FAST"),
          RestrictedAPI.initState, MessageQueue.init, [], 0⟩) ∧
    (RestrictedAPI.wait RestrictedAPI.initState MessageQueue.init 61
      = ⟨none, some "Wait time out of range (0-60 seconds)",
          RestrictedAPI.initState, MessageQueue.init, [], 0⟩) :=
  ⟨by decide, by decide, by decide, by decide, by norm_num,
   (api_validation_spec RestrictedAPI.initState MessageQueue.init .ok (.ok "")).1
     2048 (by decide),
   (api_validation_spec RestrictedAPI.initState MessageQueue.init .ok (.ok "")).2.1
     pyFloat? 0 [] (by decide),
   (api_validation_spec RestrictedAPI.initState MessageQueue.init .ok (.ok "")).2.2.1
     "5V" (by decide),
   (api_validation_spec RestrictedAPI.initState MessageQueue.init .ok (.ok "")).2.2.2.1
     "TURBO" (by decide),
   (api_validation_spec RestrictedAPI.initState MessageQueue.init .ok (.ok "")).2.2.2.2
     61 (by norm_num)⟩

lemma measure_valid_eq (parse : List Char → Option ℚ) (st : RestrictedAPI)
    (q : MessageQueue) (replies : List String)
    (h : ¬ ((replies.length : Int) < 1 ∨ (replies.length : Int) > 5000)) :
    RestrictedAPI.measure parse st q (replies.length : Int) replies
      = ⟨some (measureLoop parse q replies).1, none,
         { st with results := st.results ++ (measureLoop parse q replies).1.filterMap id },
         (measureLoop parse q replies).2.2.2,
         (measureLoop parse q replies).2.1,
         (measureLoop parse q replies).2.2.1⟩ := by
  unfold RestrictedAPI.measure
  rw [if_neg h, Int.toNat_natCast, List.take_length]

lemma measureLoop_spec (parse : List Char → Option ℚ) (rs : List String) :
    ∀ q : MessageQueue,
      (measureLoop parse q rs).1 = rs.map (parseReply parse) ∧
      (measureLoop parse q rs).2.1.length = rs.length ∧
      (measureLoop parse q rs).2.2.1
        = (rs.map (parseReply parse)).countP (fun o => o.isNone) := by
  induction rs with
  | nil => intro q; exact ⟨rfl, rfl, rfl⟩
  | cons r rest ih =>
    intro q
    obtain ⟨ih1, ih2, ih3⟩ :=
      ih (send_query (q.put ":READ?" true) .ok (.ok r)).queue
    refine ⟨?_, ?_, ?_⟩
    · show parseReply parse r :: (measureLoop parse _ rest).1 = _
      rw [ih1]; rfl
    · show ((send_query (q.put ":READ?" true) .ok (.ok r)).sent
        :: (measureLoop parse _ rest).2.1).length = rest.length + 1
      rw [List.length_cons, ih2]
    · show (if (parseReply parse r).isSome then 0 else 1)
          + (measureLoop parse _ rest).2.2.1 = _
      rw [ih3, List.map_cons, List.countP_cons]
      cases hv : parseReply parse r <;>
        simp [hv, Option.isNone, Nat.add_comm]

/-- C6: measure with a valid sample count runs one READ round trip per
sample, returns the per-sample parse results in order, records a warning for
each null placeholder, and appends exactly the valid values to the
accumulator; a comma-separated reply whose fields all parse contributes only
its first field, a comma-separated reply with a failing field and a plain
unparsable reply become the null placeholder; in particular against the
replies 1.0, 2.0, abc the call returns the values 1, 2 and the null
placeholder, appends exactly the two valid values 1 and 2, and logs exactly
one warning. -/
theorem measure_spec (parse : List Char → Option ℚ) (st : RestrictedAPI)
    (q : MessageQueue) (replies : List String)
    (h1 : 1 ≤ replies.length) (h2 : replies.length ≤ 5000) :
    ((RestrictedAPI.measure parse st q (replies.length : Int) replies).ret
        = some (replies.map (parseReply parse)) ∧
      (RestrictedAPI.measure parse st q (replies.length : Int) replies).err = none ∧
      (RestrictedAPI.measure parse st q (replies.length : Int) replies).wire.length
        = replies.length ∧
      (RestrictedAPI.measure parse st q (replies.length : Int) replies).api.results
        = st.results ++ (replies.map (parseReply parse)).filterMap id ∧
      (RestrictedAPI.measure parse st q (replies.length : Int) replies).warnings
        = (replies.map (parseReply parse)).countP (fun o => o.isNone)) ∧
    (∀ (s : String) (f : List Char) (rest : List (List Char)),
      s.data.contains ',' = true →
      pySplit ',' s.data = f :: rest →
      ((f :: rest).map (fun v => parse (pyStrip v))).all (fun o => o.isSome) = true →
      parseReply parse s = parse (pyStrip f)) ∧
    (∀ s : String, s.data.contains ',' = true →
      ((pySplit ',' s.data).map (fun v => parse (pyStrip v))).all
        (fun o => o.isSome) = false →
      parseReply parse s = none) ∧
    (∀ s : String, s.data.contains ',' = false →
      parseReply parse s = parse (pyStrip s.data)) ∧
    (RestrictedAPI.measure pyFloat? RestrictedAPI.initState MessageQueue.init 3
        ["1.0", "2.0", "abc"]
      = ⟨some [some 1, some 2, none], none, ⟨[1, 2], none, none⟩, ⟨[], true⟩,
         [":READ?" ++ "\r\n", ":READ?" ++ "\r\n", ":READ?" ++ "\r\n"], 1⟩) := by
  have hcond : ¬ ((replies.length : Int) < 1 ∨ (replies.length : Int) > 5000) := by
    push_neg
    exact ⟨by exact_mod_cast h1, by exact_mod_cast h2⟩
  have heq := measure_valid_eq parse st q replies hcond
  obtain ⟨l1, l2, l3⟩ := measureLoop_spec parse replies q
  refine ⟨⟨?_, ?_, ?_, ?_, ?_⟩, ?_, ?_, ?_, ?_⟩
  · rw [heq]
    show some (measureLoop parse q replies).1 = _
    rw [l1]
  · rw [heq]
  · rw [heq]
    exact l2
  · rw [heq]
    show st.results ++ (measureLoop parse q replies).1.filterMap id = _
    rw [l1]
  · rw [heq]
    exact l3
  · intro s f rest hc hsplit hall
    unfold parseReply
    rw [if_pos hc, hsplit, if_pos hall]
    rfl
  · intro s hc hall
    unfold parseReply
    rw [if_pos hc, if_neg (by rw [hall]; exact Bool.false_ne_true)]
  · intro s hc
    unfold parseReply
    rw [if_neg (by rw [hc]; exact Bool.false_ne_true)]
  · decide

/-- C6 witness: the general measure specification applied at the concrete
three-reply stream 1.0, 2.0, abc with the float parser model. -/
theorem measure_spec_witness :
    (1 ≤ (["1.0", "2.0", "abc"] : List String).length) ∧
    ((["1.0", "2.0", "abc"] : List String).length ≤ 5000) ∧
    ((RestrictedAPI.measure pyFloat? RestrictedAPI.initState MessageQueue.init
        ((["1.0", "2.0", "abc"] : List String).length : Int) ["1.0", "2.0", "abc"]).ret
      = some ((["1.0", "2.0", "abc"] : List String).map (parseReply pyFloat?))) :=
  ⟨by decide, by decide,
   ((measure_spec pyFloat? RestrictedAPI.initState MessageQueue.init
      ["1.0", "2.0", "abc"] (by decide) (by decide)).1).1⟩

lemma basenameChars_aux (l : List Char) :
    ∀ acc : List Char, '/' ∉ acc →
      '/' ∉ l.foldl (fun acc c => if c = '/' then [] else acc ++ [c]) acc := by
  induction l with
  | nil => intro acc h; exact h
  | cons c t ih =>
    intro acc h
    show '/' ∉ t.foldl _ (if c = '/' then [] else acc ++ [c])
    by_cases hc : c = '/'
    · rw [if_pos hc]
      exact ih [] (by simp)
    · rw [if_neg hc]
      refine ih (acc ++ [c]) ?_
      intro hm
      rcases List.mem_append.mp hm with hm | hm
      · exact h hm
      · rw [List.mem_singleton] at hm
        exact hc hm.symm

lemma basenameChars_no_slash (l : List Char) : '/' ∉ basenameChars l :=
  basenameChars_aux l [] (by simp)

lemma endsWithSuffix_append (b suf : List Char) :
    endsWithSuffix (b ++ suf) suf = true :=
  decide_eq_true (List.suffix_append b suf)

lemma appendCsv_endsWith (b : List Char) :
    endsWithSuffix (appendCsv b) ".csv".data = true := by
  unfold appendCsv
  split
  · rename_i h
    exact h
  · exact endsWithSuffix_append b _

lemma appendCsv_no_slash (b : List Char) (h : '/' ∉ b) : '/' ∉ appendCsv b := by
  unfold appendCsv
  split
  · exact h
  · intro hm
    rcases List.mem_append.mp hm with hm | hm
    · exact h hm
    · revert hm
      decide

/-- C9 (amended): for every supplied or defaulted filename, the name
save_results opens and returns contains no path separator — it is the base
name of the argument, kept inside the output location — and the concrete
traversal attempt with the passwd path yields the file name passwd.csv (the
base name passwd with the csv extension appended), not passwd. -/
theorem save_results_no_traversal (stamp : String) (f : Option String) :
    ('/' ∉ (save_results_name stamp f).data) ∧
    save_results_name "20240101_000000" (some "../../etc/passwd") = "passwd.csv" := by
  constructor
  · show '/' ∉ appendCsv (basenameChars (chooseName stamp f))
    exact appendCsv_no_slash _ (basenameChars_no_slash _)
  · decide

/-- C9 counterexample: the claim says the traversal attempt writes a file
named passwd, but the code appends the csv extension after taking the base
name, so the name written and returned is passwd.csv. -/
theorem save_results_passwd_cex :
    save_results_name "20240101_000000" (some "../../etc/passwd") = "passwd.csv" ∧
    ("passwd.csv" : String) ≠ "passwd" := by
  exact ⟨by decide, by decide⟩

/-- C10: whether or not a filename is supplied, the name save_results writes
and returns always ends in the csv extension — the extension is appended
whenever the sanitized base name does not already end with it. -/
theorem save_results_csv_suffix (stamp : String) (f : Option String) :
    endsWithSuffix (save_results_name stamp f).data ".csv".data = true := by
  show endsWithSuffix (appendCsv (basenameChars (chooseName stamp f))) ".csv".data = true
  exact appendCsv_endsWith _

end Hioki
